import Mathlib

/-!
Shallow embedding of the WebSocket relay gateway (`ChatGateway`): connection
registry (`userSockets`), signal routing (`sendToUser`, `onSendText`), the
deduplication cache (`isDuplicateSignal`, `cleanupRecentSignals`,
`hashPayload`) and the room/presence handlers (`onJoinRoom`, `onLeaveRoom`,
`onSignal`).  JavaScript `Map`s and `Set`s are modelled as association lists /
lists in insertion order; timestamps are `Nat` (`Date.now()`); payloads carry
their JSON serialization explicitly.
-/

/-- A signal payload (`body.data`): either a JS string or a JS object whose
JSON serialization is `some s`, or `none` when `JSON.stringify` throws. -/
inductive PayloadV where
  | str (s : String)
  | obj (serialized : Option String)
deriving DecidableEq, Repr

/-- The `sendText` message body, with the fields the gateway reads.  Optional
fields are `Option` (`none` models JS `undefined`). -/
structure Body where
  messageType : Option String
  signalType : Option String
  senderId : String
  targetId : Option String
  roomId : String
  data : Option PayloadV
deriving DecidableEq, Repr

/-- Transport (socket.io server) state as seen by the gateway:
`liveSockets` models `server.sockets.sockets` keys, `memberships` the pairs
`(socketId, roomName)` with `socket.rooms.has(roomName)`. -/
structure Server where
  liveSockets : List String
  memberships : List (String × String)
deriving DecidableEq, Repr

/-- The `options` argument of `sendToUser`. -/
structure SendOptions where
  roomId : Option String
  multi : Option Bool
deriving DecidableEq, Repr

/-- Data attached to an emitted event. -/
inductive EmitData where
  | body (b : Body)
  | msg (m : String)
  | presence (uid stateName roomId : String)
deriving DecidableEq, Repr

/-- One outbound emission performed by a handler. -/
inductive Emission where
  | toSocket (sid event : String) (d : EmitData)
  | roomExceptSender (room event : String) (d : EmitData)
  | toRoom (room event : String) (d : EmitData)
deriving DecidableEq, Repr

/-- Value returned by `onSendText` / `onSignal` to the caller. -/
inductive STResult where
  | err (msg : String)
  | sigOk (ty : String) (deduped : Bool)
  | chat (m : String)
  | okMessage (m : String)
deriving DecidableEq, Repr

/-- The `type` field of an `{ ok: true, type: ... }` result, when present. -/
def STResult.typeField : STResult → Option String
  | .sigOk ty _ => some ty
  | _ => none

/-- The `deduped` field of a result (`false` when absent). -/
def STResult.dedupedField : STResult → Bool
  | .sigOk _ d => d
  | _ => false

/-- The `userSockets` map: identity → socket ids in registration order
(JS `Map<string, Set<string>>`, both in insertion order). -/
abbrev Registry := List (String × List String)

/-- Gateway mutable state: the connection registry and the dedup cache. -/
structure GState where
  userSockets : Registry
  recentSignals : List (String × Nat)
deriving DecidableEq, Repr

/-! ### Association-list operations mirroring JS `Map` semantics -/

/-- JS `Map.get`: first entry with the given key. -/
def lookupA {α : Type} : List (String × α) → String → Option α
  | [], _ => none
  | (k, v) :: rest, key => if k = key then some v else lookupA rest key

/-- JS `Map.set`: overwrite in place, or append at the end when absent. -/
def setA {α : Type} : List (String × α) → String → α → List (String × α)
  | [], key, v => [(key, v)]
  | (k, w) :: rest, key, v =>
    if k = key then (k, v) :: rest else (k, w) :: setA rest key v

/-- JS `Map.delete`: remove the (first) entry with the given key. -/
def eraseA {α : Type} : List (String × α) → String → List (String × α)
  | [], _ => []
  | (k, v) :: rest, key => if k = key then rest else (k, v) :: eraseA rest key

theorem lookupA_setA {α : Type} (m : List (String × α)) (k k' : String) (v : α) :
    lookupA (setA m k v) k' = if k = k' then some v else lookupA m k' := by
  induction m with
  | nil => by_cases h : k = k' <;> simp [setA, lookupA, h]
  | cons e rest ih =>
    obtain ⟨ek, ev⟩ := e
    by_cases h1 : ek = k
    · subst h1
      by_cases h2 : ek = k' <;> simp [setA, lookupA, h2]
    · by_cases h2 : ek = k'
      · subst h2
        have : ¬ k = ek := fun h => h1 h.symm
        simp [setA, lookupA, h1, this]
      · simp [setA, lookupA, h1, h2, ih]

theorem lookupA_eraseA_ne {α : Type} (m : List (String × α)) (k k' : String)
    (h : k ≠ k') : lookupA (eraseA m k) k' = lookupA m k' := by
  induction m with
  | nil => simp [eraseA, lookupA]
  | cons e rest ih =>
    obtain ⟨ek, ev⟩ := e
    by_cases h1 : ek = k
    · subst h1
      simp [eraseA, lookupA, fun hh : ek = k' => h hh]
    · simp [eraseA, lookupA, h1]
      by_cases h2 : ek = k' <;> simp [h2, ih]

/-- A lookup is `none` exactly when no entry carries the key. -/
theorem lookupA_eq_none_iff {α : Type} (m : List (String × α)) (k : String) :
    lookupA m k = none ↔ ∀ e ∈ m, e.1 ≠ k := by
  induction m with
  | nil => simp [lookupA]
  | cons e rest ih =>
    obtain ⟨ek, ev⟩ := e
    by_cases h : ek = k <;> simp [lookupA, h, ih]

theorem lookupA_eraseA_self {α : Type} (m : List (String × α)) (k : String)
    (hnd : (m.map Prod.fst).Nodup) : lookupA (eraseA m k) k = none := by
  induction m with
  | nil => simp [eraseA, lookupA]
  | cons e rest ih =>
    obtain ⟨ek, ev⟩ := e
    simp only [List.map_cons, List.nodup_cons] at hnd
    by_cases h : ek = k
    · subst h
      rw [eraseA, if_pos rfl, lookupA_eq_none_iff]
      intro e he heq
      exact hnd.1 (heq ▸ List.mem_map_of_mem Prod.fst he)
    · simp [eraseA, lookupA, h, ih hnd.2]

theorem keys_setA_of_mem {α : Type} (m : List (String × α)) (k : String) (v : α)
    (h : lookupA m k ≠ none) : (setA m k v).map Prod.fst = m.map Prod.fst := by
  induction m with
  | nil => simp [lookupA] at h
  | cons e rest ih =>
    obtain ⟨ek, ev⟩ := e
    by_cases h1 : ek = k
    · simp [setA, h1]
    · simp only [lookupA, if_neg h1] at h
      simp [setA, h1, ih h]

theorem keys_setA_of_absent {α : Type} (m : List (String × α)) (k : String) (v : α)
    (h : lookupA m k = none) :
    (setA m k v).map Prod.fst = m.map Prod.fst ++ [k] := by
  induction m with
  | nil => simp [setA]
  | cons e rest ih =>
    obtain ⟨ek, ev⟩ := e
    by_cases h1 : ek = k
    · simp [lookupA, h1] at h
    · simp only [lookupA, if_neg h1] at h
      simp [setA, h1, ih h]

theorem keys_eraseA_sublist {α : Type} (m : List (String × α)) (k : String) :
    List.Sublist ((eraseA m k).map Prod.fst) (m.map Prod.fst) := by
  induction m with
  | nil => simp [eraseA]
  | cons e rest ih =>
    obtain ⟨ek, ev⟩ := e
    by_cases h : ek = k
    · simp only [eraseA, if_pos h, List.map_cons]
      exact (List.sublist_cons_self _ _)
    · simpa [eraseA, h] using ih.cons₂ ek

/-! ### Deduplication cache -/

/-- The constant `this.dedupWindowMs = 1_000`. -/
def dedupWindowMs : Nat := 1000

/-- The set `this.roomScopedSignals`. -/
def roomScopedSignals : List String :=
  ["call-accepted", "call-rejected", "call-ended", "offer", "answer", "ice-candidate"]

/-- The set `this.multiTargetSignals`. -/
def multiTargetSignals : List String := ["call-request"]

/-- The set `this.dedupSignals`. -/
def dedupSignals : List String :=
  ["call-request", "call-accepted", "call-rejected", "call-ended", "offer", "answer"]

/-- The gateway's `hashPayload`: a string payload is truncated to 64 characters, an object
is JSON-serialized then truncated; a serialization failure yields `''`. -/
def hashPayload : PayloadV → String
  | .str s => s.take 64
  | .obj (some j) => j.take 64
  | .obj none => ""

/-- The expression `body.data ? this.hashPayload(body.data) : ''`. -/
def payloadHashOf (body : Body) : String :=
  match body.data with
  | none => ""
  | some p => hashPayload p

/-- JS template-literal interpolation of a possibly-undefined string. -/
def jsStr : Option String → String
  | none => "undefined"
  | some s => s

/-- The dedup fingerprint
`${signalType}|${body.senderId}|${body.targetId}|${body.roomId}|${payloadHash}`. -/
def dedupKey (signalType : String) (body : Body) : String :=
  signalType ++ "|" ++ body.senderId ++ "|" ++ jsStr body.targetId ++ "|" ++
    body.roomId ++ "|" ++ payloadHashOf body

/-- The sweep `cleanupRecentSignals`: drop entries with `now - timestamp > 2 * window`. -/
def cleanupRecentSignals (now : Nat) (m : List (String × Nat)) :
    List (String × Nat) :=
  m.filter (fun e => now - e.2 ≤ dedupWindowMs * 2)

/-- The check `isDuplicateSignal`, returning the verdict together with the updated
`recentSignals` map.  The `lastSeen ≠ 0` conjunct models JS truthiness of
`lastSeen` in `if (lastSeen && now - lastSeen < this.dedupWindowMs)`. -/
def isDuplicateSignal (signalType : String) (body : Body) (now : Nat)
    (recent : List (String × Nat)) : Bool × List (String × Nat) :=
  if ¬ (signalType ∈ dedupSignals) then (false, recent)
  else
    let key := dedupKey signalType body
    match lookupA recent key with
    | some lastSeen =>
      if lastSeen ≠ 0 ∧ now - lastSeen < dedupWindowMs then (true, recent)
      else (false, cleanupRecentSignals now (setA recent key now))
    | none => (false, cleanupRecentSignals now (setA recent key now))

/-! ### Targeted delivery (`sendToUser`) -/

/-- JS truthiness of an optional string, as tested by `if (body.targetId)`
and by `options?.roomId ? ... : undefined`: an absent or empty string is
falsy. -/
def truthyStr : Option String → Bool
  | none => false
  | some s => s ≠ ""

/-- Whether `server.sockets.sockets.get(socketId)` is defined, i.e. the socket is live. -/
def liveB (srv : Server) (sid : String) : Bool :=
  sid ∈ srv.liveSockets

/-- The room filter of the delivery loop: the negation of
`if (roomName && !socket.rooms.has(roomName)) continue`. -/
def passRoom (srv : Server) (roomName : Option String) (sid : String) : Bool :=
  match roomName with
  | none => true
  | some rn => (sid, rn) ∈ srv.memberships

/-- The `for (const socketId of candidates)` loop body of `sendToUser`:
walks the candidate snapshot, erasing dead ids from the live set `cur`,
skipping sockets outside `roomName`, emitting otherwise, and breaking after
the first emission when `multi` is false.  Returns the emitted socket ids in
order together with the final socket set. -/
def sendLoop (srv : Server) (roomName : Option String) (multi : Bool) :
    List String → List String → List String × List String
  | [], cur => ([], cur)
  | sid :: rest, cur =>
    if liveB srv sid then
      if passRoom srv roomName sid then
        if multi then
          let r := sendLoop srv roomName multi rest cur
          (sid :: r.1, r.2)
        else ([sid], cur)
      else sendLoop srv roomName multi rest cur
    else sendLoop srv roomName multi rest (cur.erase sid)

/-- The helper `sendToUser(userId, event, data, options)`, restricted to its effect on the
registry: returns the updated registry, the `delivered` flag and the list of
socket ids emitted to (most-recently-registered first). -/
def sendToUser (srv : Server) (reg : Registry) (userId : String)
    (options : SendOptions) : Registry × Bool × List String :=
  match lookupA reg userId with
  | some socketIds =>
    if socketIds.length > 0 then
      let roomName := if truthyStr options.roomId
        then some ("room:" ++ options.roomId.getD "") else none
      let multi := options.multi.getD true
      let r := sendLoop srv roomName multi socketIds.reverse socketIds
      let reg' := if r.2.length = 0 then eraseA reg userId else setA reg userId r.2
      (reg', !r.1.isEmpty, r.1)
    else (reg, false, [])
  | none => (reg, false, [])

/-! ### Connection registry (`handleConnection` / `handleDisconnect`) -/

/-- The registry-tracking part of `handleConnection` for a verified token
whose payload yields `userId`: create the entry if absent, add the socket. -/
def handleConnection (reg : Registry) (userId sid : String) : Registry :=
  match lookupA reg userId with
  | none => reg ++ [(userId, [sid])]
  | some l => setA reg userId (if sid ∈ l then l else l ++ [sid])

/-- The handler `handleDisconnect` for an authenticated client with identity `userId`:
delete the socket id, and drop the whole entry when the set becomes empty. -/
def handleDisconnect (reg : Registry) (userId sid : String) : Registry :=
  match lookupA reg userId with
  | none => reg
  | some l =>
    let l' := l.erase sid
    if l'.length = 0 then eraseA reg userId else setA reg userId l'

/-- The registry's view of an identity's connections (`userSockets.get`). -/
def connectionsFor (reg : Registry) (userId : String) : List String :=
  (lookupA reg userId).getD []

/-- The check `isUserOnline`: `userSockets.has(userId) && userSockets.get(userId)!.size > 0`. -/
def isUserOnline (reg : Registry) (userId : String) : Bool :=
  match lookupA reg userId with
  | some l => l.length > 0
  | none => false

/-! ### Event handlers -/

/-- Result of `onJoinRoom` / `onLeaveRoom`. -/
inductive RoomResult where
  | unauthorized
  | ok (roomId : String)
deriving DecidableEq, Repr

/-- Output of a room handler: the result returned to the caller, the
`(socketId, roomName)` membership changes performed, and the emissions. -/
structure RoomOut where
  result : RoomResult
  changes : List (String × String)
  emissions : List Emission
deriving DecidableEq, Repr

/-- The handler `onJoinRoom`: rejects anonymous connections, otherwise joins
`room:<roomId>` and emits a presence event to the whole room. -/
def onJoinRoom (auth : Option String) (clientId roomId : String) : RoomOut :=
  match auth with
  | none => ⟨.unauthorized, [], []⟩
  | some _ =>
    ⟨.ok roomId, [(clientId, "room:" ++ roomId)],
     [.toRoom ("room:" ++ roomId) "presence" (.presence clientId "joined" roomId)]⟩

/-- The handler `onLeaveRoom`: no authentication check; leaves the room and emits a
presence event. -/
def onLeaveRoom (auth : Option String) (clientId roomId : String) : RoomOut :=
  ⟨.ok roomId, [(clientId, "room:" ++ roomId)],
   [.toRoom ("room:" ++ roomId) "presence" (.presence clientId "left" roomId)]⟩

/-- Output of `onSendText`: updated gateway state, the value returned to the
caller, the emissions performed, and whether `messageService.sendText` was
invoked. -/
structure STOut where
  state : GState
  result : STResult
  emissions : List Emission
  persistCalled : Bool
deriving DecidableEq, Repr

/-- JS `String.prototype.toLowerCase()`: lower-case each character. -/
def jsToLower (s : String) : String :=
  String.mk (s.data.map Char.toLower)

/-- The normalized signal type `(body.signalType ?? '').toLowerCase()`. -/
def normSignalType (body : Body) : String :=
  jsToLower (body.signalType.getD "")

/-- The `options` object `onSendText` passes to `sendToUser`. -/
def routeOptions (nty : String) (body : Body) : SendOptions :=
  ⟨if nty ∈ roomScopedSignals then some body.roomId else none,
   some (nty ∈ multiTargetSignals)⟩

/-- The handler `onSendText`.  The external persistence collaborator
`messageService.sendText(body, user)` is modelled by the `persist` oracle:
`.ok m` is the persisted message it returns, `.error e` the exception it
throws (caught by the handler's `try/catch`). -/
def onSendText (srv : Server) (st : GState) (auth : Option String) (now : Nat)
    (body : Body) (persist : Except String String) : STOut :=
  match auth with
  | none => ⟨st, .err "Unauthorized", [], false⟩
  | some _ =>
    if body.messageType = some "webrtc_signal" then
      let nty := normSignalType body
      let r := isDuplicateSignal nty body now st.recentSignals
      if r.1 then ⟨⟨st.userSockets, r.2⟩, .sigOk "webrtc_signal" true, [], false⟩
      else
        if truthyStr body.targetId then
          let s := sendToUser srv st.userSockets (body.targetId.getD "")
            (routeOptions nty body)
          if s.2.1 then
            ⟨⟨s.1, r.2⟩, .sigOk "webrtc_signal" false,
             s.2.2.map (fun sid => .toSocket sid "newMessage" (.body body)), false⟩
          else
            ⟨⟨s.1, r.2⟩, .sigOk "webrtc_signal" false,
             [.roomExceptSender ("room:" ++ body.roomId) "newMessage" (.body body)],
             false⟩
        else
          ⟨⟨st.userSockets, r.2⟩, .sigOk "webrtc_signal" false,
           [.roomExceptSender ("room:" ++ body.roomId) "newMessage" (.body body)],
           false⟩
    else
      match persist with
      | .ok m =>
        ⟨st, .chat m, [.toRoom ("room:" ++ body.roomId) "newMessage" (.msg m)], true⟩
      | .error e => ⟨st, .err e, [], true⟩

/-- Output of `onSignal`. -/
structure SigOut where
  result : STResult
  emissions : List Emission
  persistCalled : Bool
deriving DecidableEq, Repr

/-- The handler `onSignal`: rejects anonymous connections; otherwise delegates to the
external `messageService.sendSignal` (the `persist` oracle) and broadcasts
the returned message to the room except the sender. -/
def onSignal (auth : Option String) (roomId : String)
    (persist : Except String String) : SigOut :=
  match auth with
  | none => ⟨.err "Unauthorized", [], false⟩
  | some _ =>
    match persist with
    | .ok m =>
      ⟨.okMessage m, [.roomExceptSender ("room:" ++ roomId) "signal" (.msg m)], true⟩
    | .error e => ⟨.err e, [], true⟩

/-! ### Delivery-loop lemmas -/

/-- When every candidate socket is live and no room filter applies, the
multi-target loop emits to every candidate and never touches the socket set. -/
theorem sendLoop_live_none_multi (srv : Server) (cands cur : List String)
    (h : ∀ sid ∈ cands, liveB srv sid = true) :
    sendLoop srv none true cands cur = (cands, cur) := by
  induction cands with
  | nil => rfl
  | cons sid rest ih =>
    have hs : liveB srv sid = true := h sid (by simp)
    have hr : ∀ s ∈ rest, liveB srv s = true := fun s hsm => h s (by simp [hsm])
    simp [sendLoop, hs, passRoom, ih hr]

/-- When every candidate socket is live and no room filter applies, the
single-target loop emits to the first candidate only. -/
theorem sendLoop_live_none_single (srv : Server) (cands cur : List String)
    (h : ∀ sid ∈ cands, liveB srv sid = true) :
    sendLoop srv none false cands cur = (cands.take 1, cur) := by
  cases cands with
  | nil => rfl
  | cons sid rest =>
    have hs : liveB srv sid = true := h sid (by simp)
    simp [sendLoop, hs, passRoom]

/-- Every socket id the loop emits to passes the room filter. -/
theorem sendLoop_emit_passRoom (srv : Server) (roomName : Option String)
    (multi : Bool) (cands cur : List String) :
    ∀ sid ∈ (sendLoop srv roomName multi cands cur).1,
      passRoom srv roomName sid = true := by
  induction cands generalizing cur with
  | nil => simp [sendLoop]
  | cons sid rest ih =>
    intro s hs
    by_cases hl : liveB srv sid
    · by_cases hp : passRoom srv roomName sid
      · cases multi with
        | true =>
          simp only [sendLoop, hl, hp, if_true, List.mem_cons] at hs
          rcases hs with rfl | h
          · exact hp
          · exact ih cur s h
        | false =>
          simp only [sendLoop, hl, hp, if_true, Bool.false_eq_true, if_false,
            List.mem_singleton] at hs
          exact hs ▸ hp
      · simp only [sendLoop, hl, hp] at hs
        exact ih cur s hs
    · simp only [sendLoop, hl] at hs
      simp only [Bool.false_eq_true, if_false] at hs
      exact ih (cur.erase sid) s hs

/-- The socket set threaded through the loop only loses elements. -/
theorem sendLoop_cur_sublist (srv : Server) (roomName : Option String)
    (multi : Bool) (cands cur : List String) :
    List.Sublist (sendLoop srv roomName multi cands cur).2 cur := by
  induction cands generalizing cur with
  | nil => simp [sendLoop]
  | cons sid rest ih =>
    by_cases hl : liveB srv sid
    · by_cases hp : passRoom srv roomName sid
      · cases multi with
        | true => simpa [sendLoop, hl, hp] using ih cur
        | false => simp [sendLoop, hl, hp]
      · simpa [sendLoop, hl, hp] using ih cur
    · simp only [sendLoop, hl, Bool.false_eq_true, if_false]
      exact (ih (cur.erase sid)).trans (List.erase_sublist sid cur)

/-- The `delivered` flag is `true` exactly when some emission happened. -/
theorem sendToUser_delivered_iff (srv : Server) (reg : Registry) (uid : String)
    (options : SendOptions) :
    (sendToUser srv reg uid options).2.1 = true ↔
      (sendToUser srv reg uid options).2.2 ≠ [] := by
  unfold sendToUser
  cases h : lookupA reg uid with
  | none => simp
  | some socketIds =>
    by_cases hlen : socketIds.length > 0
    · simp only [hlen, if_true]
      cases (sendLoop srv (if truthyStr options.roomId
            then some ("room:" ++ options.roomId.getD "") else none)
          (options.multi.getD true) socketIds.reverse socketIds).1 <;> simp
    · simp [hlen]

/-- C1: for an identity with N ≥ 1 live registered connections and no room
filter, a multi-target signal is delivered to all N connections (iterated
most-recently-registered first), while a non-multi-target signal is delivered
to exactly one connection: the most recently registered one. -/
theorem c1_targeted_delivery_newest_wins (srv : Server) (reg : Registry)
    (uid : String) (l : List String) (hl : lookupA reg uid = some l)
    (hne : l ≠ []) (hlive : ∀ sid ∈ l, liveB srv sid = true) :
    (sendToUser srv reg uid ⟨none, some true⟩).2.2 = l.reverse ∧
    (sendToUser srv reg uid ⟨none, some true⟩).2.2.length = l.length ∧
    (sendToUser srv reg uid ⟨none, some false⟩).2.2 = l.getLast?.toList ∧
    (sendToUser srv reg uid ⟨none, some false⟩).2.2.length = 1 := by
  have hlen : l.length > 0 := List.length_pos.mpr hne
  have hliveR : ∀ sid ∈ l.reverse, liveB srv sid = true := by
    intro sid hsid
    exact hlive sid (List.mem_reverse.mp hsid)
  have hmulti :
      (sendToUser srv reg uid ⟨none, some true⟩).2.2 = l.reverse := by
    simp only [sendToUser, hl, hlen, if_true, truthyStr, Bool.false_eq_true,
      if_false, Option.getD_some]
    rw [sendLoop_live_none_multi srv l.reverse l hliveR]
  have hsingle :
      (sendToUser srv reg uid ⟨none, some false⟩).2.2 = l.getLast?.toList := by
    simp only [sendToUser, hl, hlen, if_true, truthyStr, Bool.false_eq_true,
      if_false, Option.getD_some]
    rw [sendLoop_live_none_single srv l.reverse l hliveR]
    simp [List.take_one, List.head?_reverse]
  refine ⟨hmulti, ?_, hsingle, ?_⟩
  · rw [hmulti, List.length_reverse]
  · rw [hsingle, List.getLast?_eq_getLast l hne]
    rfl

/-- Witness for C1 at a concrete two-device registry. -/
theorem c1_witness :
    (sendToUser ⟨["c1", "c2"], []⟩ [("u", ["c1", "c2"])] "u"
        ⟨none, some true⟩).2.2 = ["c2", "c1"] ∧
    (sendToUser ⟨["c1", "c2"], []⟩ [("u", ["c1", "c2"])] "u"
        ⟨none, some false⟩).2.2 = ["c2"] := by
  have h := c1_targeted_delivery_newest_wins ⟨["c1", "c2"], []⟩
    [("u", ["c1", "c2"])] "u" ["c1", "c2"] (by decide) (by decide) (by decide)
  exact ⟨h.1.trans (by decide), h.2.2.1.trans (by decide)⟩

/-! ### Registry invariant (C4) -/

theorem lookupA_eq_none_iff_keys {α : Type} (m : List (String × α)) (k : String) :
    lookupA m k = none ↔ k ∉ m.map Prod.fst := by
  rw [lookupA_eq_none_iff]
  simp only [List.mem_map]
  constructor
  · rintro h ⟨e, he, rfl⟩
    exact h e he rfl
  · intro h e he heq
    exact h ⟨e, he, heq⟩

theorem lookupA_append {α : Type} (m m' : List (String × α)) (u : String) :
    lookupA (m ++ m') u =
      match lookupA m u with
      | some w => some w
      | none => lookupA m' u := by
  induction m with
  | nil => simp [lookupA]
  | cons e rest ih =>
    obtain ⟨ek, ev⟩ := e
    by_cases h : ek = u <;> simp [lookupA, h, ih]

/-- One transition of the connection registry.  The freshness hypothesis of
`connect` models the transport guarantee that a connection id is unique per
process lifetime: `handleConnection` runs once per socket, with an id that
never occurred before. -/
inductive RegStep : Registry → Registry → Prop where
  | connect (reg : Registry) (uid sid : String)
      (fresh : ∀ u l, lookupA reg u = some l → sid ∉ l) :
      RegStep reg (handleConnection reg uid sid)
  | disconnect (reg : Registry) (uid sid : String) :
      RegStep reg (handleDisconnect reg uid sid)
  | deliver (reg : Registry) (srv : Server) (uid : String)
      (options : SendOptions) :
      RegStep reg (sendToUser srv reg uid options).1

/-- Registry states reachable from the initial empty `userSockets` map. -/
def ReachableReg (reg : Registry) : Prop :=
  Relation.ReflTransGen RegStep [] reg

/-- The registry invariant: keys are distinct, no identity maps to an empty
connection set, connection lists are duplicate-free, and a connection id
appears under at most one identity. -/
structure RegInv (reg : Registry) : Prop where
  keysNodup : (reg.map Prod.fst).Nodup
  entriesNonempty : ∀ u l, lookupA reg u = some l → l ≠ []
  socketsNodup : ∀ u l, lookupA reg u = some l → l.Nodup
  socketUnique : ∀ s u₁ u₂ l₁ l₂, lookupA reg u₁ = some l₁ →
    lookupA reg u₂ = some l₂ → s ∈ l₁ → s ∈ l₂ → u₁ = u₂

theorem regInv_nil : RegInv [] := by
  refine ⟨by simp, ?_, ?_, ?_⟩
  · intro u l h
    simp [lookupA] at h
  · intro u l h
    simp [lookupA] at h
  · intro s u₁ u₂ l₁ l₂ h₁
    simp [lookupA] at h₁

/-- Shrinking one identity's connection list (dropping the entry when it
empties) preserves the invariant. -/
theorem regInv_update (reg : Registry) (uid : String) (l l' : List String)
    (inv : RegInv reg) (h : lookupA reg uid = some l)
    (hsub : ∀ s ∈ l', s ∈ l) (hnd : l'.Nodup) :
    RegInv (if l'.length = 0 then eraseA reg uid else setA reg uid l') := by
  by_cases hz : l'.length = 0
  · rw [if_pos hz]
    refine ⟨inv.keysNodup.sublist (keys_eraseA_sublist reg uid), ?_, ?_, ?_⟩
    · intro u lw hw
      by_cases hu : uid = u
      · subst hu
        rw [lookupA_eraseA_self reg uid inv.keysNodup] at hw
        exact absurd hw (by simp)
      · rw [lookupA_eraseA_ne reg uid u hu] at hw
        exact inv.entriesNonempty u lw hw
    · intro u lw hw
      by_cases hu : uid = u
      · subst hu
        rw [lookupA_eraseA_self reg uid inv.keysNodup] at hw
        exact absurd hw (by simp)
      · rw [lookupA_eraseA_ne reg uid u hu] at hw
        exact inv.socketsNodup u lw hw
    · intro s u₁ u₂ l₁ l₂ h₁ h₂ m₁ m₂
      by_cases hu₁ : uid = u₁
      · subst hu₁
        rw [lookupA_eraseA_self reg uid inv.keysNodup] at h₁
        exact absurd h₁ (by simp)
      · by_cases hu₂ : uid = u₂
        · subst hu₂
          rw [lookupA_eraseA_self reg uid inv.keysNodup] at h₂
          exact absurd h₂ (by simp)
        · rw [lookupA_eraseA_ne reg uid u₁ hu₁] at h₁
          rw [lookupA_eraseA_ne reg uid u₂ hu₂] at h₂
          exact inv.socketUnique s u₁ u₂ l₁ l₂ h₁ h₂ m₁ m₂
  · rw [if_neg hz]
    have hkeys : (setA reg uid l').map Prod.fst = reg.map Prod.fst :=
      keys_setA_of_mem reg uid l' (by rw [h]; exact Option.noConfusion)
    refine ⟨hkeys ▸ inv.keysNodup, ?_, ?_, ?_⟩
    · intro u lw hw
      rw [lookupA_setA] at hw
      by_cases hu : uid = u
      · rw [if_pos hu] at hw
        cases hw
        exact fun he => hz (by simp [he])
      · rw [if_neg hu] at hw
        exact inv.entriesNonempty u lw hw
    · intro u lw hw
      rw [lookupA_setA] at hw
      by_cases hu : uid = u
      · rw [if_pos hu] at hw
        cases hw
        exact hnd
      · rw [if_neg hu] at hw
        exact inv.socketsNodup u lw hw
    · intro s u₁ u₂ l₁ l₂ h₁ h₂ m₁ m₂
      rw [lookupA_setA] at h₁ h₂
      by_cases hu₁ : uid = u₁
      · rw [if_pos hu₁] at h₁
        cases h₁
        by_cases hu₂ : uid = u₂
        · exact hu₁ ▸ hu₂.symm ▸ rfl
        · rw [if_neg hu₂] at h₂
          exact (hu₁ ▸ inv.socketUnique s uid u₂ l l₂ h h₂ (hsub s m₁) m₂)
      · rw [if_neg hu₁] at h₁
        by_cases hu₂ : uid = u₂
        · rw [if_pos hu₂] at h₂
          cases h₂
          exact (hu₂ ▸ inv.socketUnique s u₁ uid l₁ l h₁ h m₁ (hsub s m₂))
        · rw [if_neg hu₂] at h₂
          exact inv.socketUnique s u₁ u₂ l₁ l₂ h₁ h₂ m₁ m₂

/-- The handler `handleConnection` preserves the invariant when the connection id is
fresh. -/
theorem regInv_handleConnection (reg : Registry) (uid sid : String)
    (inv : RegInv reg) (fresh : ∀ u l, lookupA reg u = some l → sid ∉ l) :
    RegInv (handleConnection reg uid sid) := by
  unfold handleConnection
  cases h : lookupA reg uid with
  | none =>
    have hk : uid ∉ reg.map Prod.fst := (lookupA_eq_none_iff_keys reg uid).mp h
    have hlook : ∀ u, lookupA (reg ++ [(uid, [sid])]) u =
        match lookupA reg u with
        | some w => some w
        | none => if uid = u then some [sid] else none := by
      intro u
      rw [lookupA_append]
      cases lookupA reg u <;> simp [lookupA]
    refine ⟨?_, ?_, ?_, ?_⟩
    · rw [List.map_append]
      rw [List.nodup_append]
      exact ⟨inv.keysNodup, by simp, by simpa using fun hmem => hk hmem⟩
    · intro u lw hw
      rw [hlook] at hw
      cases hu : lookupA reg u with
      | some w =>
        rw [hu] at hw
        cases hw
        exact inv.entriesNonempty u lw hu
      | none =>
        rw [hu] at hw
        by_cases he : uid = u
        · rw [if_pos he] at hw
          cases hw
          simp
        · rw [if_neg he] at hw
          exact absurd hw (by simp)
    · intro u lw hw
      rw [hlook] at hw
      cases hu : lookupA reg u with
      | some w =>
        rw [hu] at hw
        cases hw
        exact inv.socketsNodup u lw hu
      | none =>
        rw [hu] at hw
        by_cases he : uid = u
        · rw [if_pos he] at hw
          cases hw
          simp
        · rw [if_neg he] at hw
          exact absurd hw (by simp)
    · intro s u₁ u₂ l₁ l₂ h₁ h₂ m₁ m₂
      rw [hlook] at h₁ h₂
      cases hu₁ : lookupA reg u₁ with
      | some w₁ =>
        rw [hu₁] at h₁
        cases h₁
        cases hu₂ : lookupA reg u₂ with
        | some w₂ =>
          rw [hu₂] at h₂
          cases h₂
          exact inv.socketUnique s u₁ u₂ l₁ l₂ hu₁ hu₂ m₁ m₂
        | none =>
          rw [hu₂] at h₂
          by_cases he : uid = u₂
          · rw [if_pos he] at h₂
            cases h₂
            simp only [List.mem_singleton] at m₂
            exact absurd (m₂ ▸ m₁) (fresh u₁ l₁ hu₁)
          · rw [if_neg he] at h₂
            exact absurd h₂ (by simp)
      | none =>
        rw [hu₁] at h₁
        by_cases he : uid = u₁
        · rw [if_pos he] at h₁
          cases h₁
          simp only [List.mem_singleton] at m₁
          cases hu₂ : lookupA reg u₂ with
          | some w₂ =>
            rw [hu₂] at h₂
            cases h₂
            exact absurd (m₁ ▸ m₂) (fresh u₂ l₂ hu₂)
          | none =>
            rw [hu₂] at h₂
            by_cases he₂ : uid = u₂
            · rw [← he, ← he₂]
            · rw [if_neg he₂] at h₂
              exact absurd h₂ (by simp)
        · rw [if_neg he] at h₁
          exact absurd h₁ (by simp)
  | some l =>
    have hkeys : (setA reg uid (if sid ∈ l then l else l ++ [sid])).map Prod.fst
        = reg.map Prod.fst :=
      keys_setA_of_mem reg uid _ (by rw [h]; exact Option.noConfusion)
    have hmem : ∀ s, s ∈ (if sid ∈ l then l else l ++ [sid]) → s ∈ l ∨ s = sid := by
      intro s hs
      by_cases hc : sid ∈ l
      · rw [if_pos hc] at hs
        exact Or.inl hs
      · rw [if_neg hc] at hs
        simpa using hs
    refine ⟨hkeys ▸ inv.keysNodup, ?_, ?_, ?_⟩
    · intro u lw hw
      rw [lookupA_setA] at hw
      by_cases hu : uid = u
      · rw [if_pos hu] at hw
        cases hw
        by_cases hc : sid ∈ l
        · rw [if_pos hc]
          exact inv.entriesNonempty uid l h
        · rw [if_neg hc]
          simp
      · rw [if_neg hu] at hw
        exact inv.entriesNonempty u lw hw
    · intro u lw hw
      rw [lookupA_setA] at hw
      by_cases hu : uid = u
      · rw [if_pos hu] at hw
        cases hw
        by_cases hc : sid ∈ l
        · rw [if_pos hc]
          exact inv.socketsNodup uid l h
        · rw [if_neg hc]
          rw [List.nodup_append]
          exact ⟨inv.socketsNodup uid l h, by simp, by simpa using hc⟩
      · rw [if_neg hu] at hw
        exact inv.socketsNodup u lw hw
    · intro s u₁ u₂ l₁ l₂ h₁ h₂ m₁ m₂
      rw [lookupA_setA] at h₁ h₂
      by_cases hu₁ : uid = u₁
      · rw [if_pos hu₁] at h₁
        cases h₁
        by_cases hu₂ : uid = u₂
        · rw [← hu₁, ← hu₂]
        · rw [if_neg hu₂] at h₂
          rcases hmem s m₁ with hs | hs
          · exact hu₁ ▸ inv.socketUnique s uid u₂ l l₂ h h₂ hs m₂
          · exact absurd (hs ▸ m₂) (fresh u₂ l₂ h₂)
      · rw [if_neg hu₁] at h₁
        by_cases hu₂ : uid = u₂
        · rw [if_pos hu₂] at h₂
          cases h₂
          rcases hmem s m₂ with hs | hs
          · exact hu₂ ▸ inv.socketUnique s u₁ uid l₁ l h₁ h m₁ hs
          · exact absurd (hs ▸ m₁) (fresh u₁ l₁ h₁)
        · rw [if_neg hu₂] at h₂
          exact inv.socketUnique s u₁ u₂ l₁ l₂ h₁ h₂ m₁ m₂

/-- The handler `handleDisconnect` preserves the invariant. -/
theorem regInv_handleDisconnect (reg : Registry) (uid sid : String)
    (inv : RegInv reg) : RegInv (handleDisconnect reg uid sid) := by
  unfold handleDisconnect
  cases h : lookupA reg uid with
  | none => exact inv
  | some l =>
    exact regInv_update reg uid l (l.erase sid) inv h
      (fun s hs => List.erase_subset sid l hs) ((inv.socketsNodup uid l h).erase sid)

/-- The dead-socket cleanup inside `sendToUser` preserves the invariant. -/
theorem regInv_sendToUser (srv : Server) (reg : Registry) (uid : String)
    (options : SendOptions) (inv : RegInv reg) :
    RegInv (sendToUser srv reg uid options).1 := by
  unfold sendToUser
  cases h : lookupA reg uid with
  | none => exact inv
  | some socketIds =>
    by_cases hlen : socketIds.length > 0
    · simp only [hlen, if_true]
      have hsub := sendLoop_cur_sublist srv
        (if truthyStr options.roomId
          then some ("room:" ++ options.roomId.getD "") else none)
        (options.multi.getD true) socketIds.reverse socketIds
      exact regInv_update reg uid socketIds _ inv h
        (fun s hs => hsub.subset hs)
        ((inv.socketsNodup uid socketIds h).sublist hsub)
    · simp only [hlen, if_false]
      exact inv

/-- Every reachable registry state satisfies the invariant. -/
theorem regInv_reachable (reg : Registry) (h : ReachableReg reg) : RegInv reg := by
  induction h with
  | refl => exact regInv_nil
  | tail hab hstep ih =>
    cases hstep with
    | connect uid sid fresh => exact regInv_handleConnection _ uid sid ih fresh
    | disconnect uid sid => exact regInv_handleDisconnect _ uid sid ih
    | deliver srv uid options => exact regInv_sendToUser srv _ uid options ih

/-- C4: in every reachable registry state, no identity maps to an empty
connection set and a connection id appears under at most one identity;
consequently, a disconnected connection no longer appears in
`connectionsFor`, and when it was the identity's last connection,
`isUserOnline` becomes false. -/
theorem c4_registry_invariant (reg : Registry) (h : ReachableReg reg) :
    (∀ u l, lookupA reg u = some l → l ≠ []) ∧
    (∀ s u₁ u₂ l₁ l₂, lookupA reg u₁ = some l₁ → lookupA reg u₂ = some l₂ →
      s ∈ l₁ → s ∈ l₂ → u₁ = u₂) ∧
    (∀ uid sid, sid ∉ connectionsFor (handleDisconnect reg uid sid) uid) ∧
    (∀ uid sid, connectionsFor reg uid = [sid] →
      isUserOnline (handleDisconnect reg uid sid) uid = false) := by
  have inv := regInv_reachable reg h
  refine ⟨inv.entriesNonempty, inv.socketUnique, ?_, ?_⟩
  · intro uid sid
    unfold handleDisconnect connectionsFor
    cases hu : lookupA reg uid with
    | none => simp [hu]
    | some l =>
      by_cases hz : (l.erase sid).length = 0
      · simp only [hz, if_true]
        rw [lookupA_eraseA_self reg uid inv.keysNodup]
        simp
      · simp only [hz, if_false]
        rw [lookupA_setA]
        simp only [if_pos rfl, Option.getD_some]
        intro hmem
        have hnd := inv.socketsNodup uid l hu
        rcases (hnd.mem_erase_iff).mp hmem with ⟨hne, _⟩
        exact hne rfl
  · intro uid sid hcf
    unfold connectionsFor at hcf
    cases hu : lookupA reg uid with
    | none => simp [hu] at hcf
    | some l =>
      rw [hu] at hcf
      simp only [Option.getD_some] at hcf
      subst hcf
      unfold handleDisconnect
      rw [hu]
      have hz : ([sid].erase sid).length = 0 := by simp
      simp only [hz, if_true]
      unfold isUserOnline
      rw [lookupA_eraseA_self reg uid inv.keysNodup]

/-- Witness for C4: a registry reached by a single connect step. -/
theorem c4_witness :
    "s1" ∉ connectionsFor (handleDisconnect [("u1", ["s1"])] "u1" "s1") "u1" ∧
    isUserOnline (handleDisconnect [("u1", ["s1"])] "u1" "s1") "u1" = false := by
  have hreach : ReachableReg [("u1", ["s1"])] := by
    have hstep := RegStep.connect [] "u1" "s1"
      (fun u l hl => by simp [lookupA] at hl)
    have heq : handleConnection [] "u1" "s1" = [("u1", ["s1"])] := rfl
    exact Relation.ReflTransGen.single (heq ▸ hstep)
  have h := c4_registry_invariant [("u1", ["s1"])] hreach
  exact ⟨h.2.2.1 "u1" "s1", h.2.2.2 "u1" "s1" (by decide)⟩

/-! ### Dedup-cache lemmas -/

theorem setA_eq_append_of_absent {α : Type} (m : List (String × α)) (k : String)
    (v : α) (h : lookupA m k = none) : setA m k v = m ++ [(k, v)] := by
  induction m with
  | nil => simp [setA]
  | cons e rest ih =>
    obtain ⟨ek, ev⟩ := e
    by_cases h1 : ek = k
    · simp [lookupA, h1] at h
    · simp only [lookupA, if_neg h1] at h
      simp [setA, h1, ih h]

/-- A dedup-eligible signal with a fresh fingerprint is not a duplicate; the
entry is recorded at `now` and the opportunistic sweep runs. -/
theorem isDuplicateSignal_fresh (nty : String) (body : Body) (now : Nat)
    (recent : List (String × Nat)) (helig : nty ∈ dedupSignals)
    (hfresh : lookupA recent (dedupKey nty body) = none) :
    isDuplicateSignal nty body now recent =
      (false, cleanupRecentSignals now (setA recent (dedupKey nty body) now)) := by
  simp only [isDuplicateSignal, helig, not_true, if_false, hfresh]

/-- A dedup-eligible signal whose fingerprint was last seen within the window
is reported as a duplicate and the cache is left untouched. -/
theorem isDuplicateSignal_dup (nty : String) (body : Body) (now : Nat)
    (recent : List (String × Nat)) (v : Nat) (helig : nty ∈ dedupSignals)
    (hseen : lookupA recent (dedupKey nty body) = some v) (hnz : v ≠ 0)
    (hwin : now - v < dedupWindowMs) :
    isDuplicateSignal nty body now recent = (true, recent) := by
  simp only [isDuplicateSignal, helig, not_true, if_false, hseen]
  rw [if_pos ⟨hnz, hwin⟩]

/-- A dedup-eligible signal whose fingerprint entry is ≥ window old is not a
duplicate; the entry is refreshed. -/
theorem isDuplicateSignal_stale (nty : String) (body : Body) (now : Nat)
    (recent : List (String × Nat)) (v : Nat) (helig : nty ∈ dedupSignals)
    (hseen : lookupA recent (dedupKey nty body) = some v)
    (hwin : dedupWindowMs ≤ now - v) :
    isDuplicateSignal nty body now recent =
      (false, cleanupRecentSignals now (setA recent (dedupKey nty body) now)) := by
  simp only [isDuplicateSignal, helig, not_true, if_false, hseen]
  rw [if_neg]
  rintro ⟨-, hlt⟩
  exact absurd hwin (not_le.mpr hlt)

/-- A dedup-eligible signal whose fingerprint entry fails the duplicate test
(zero timestamp or out of window) is not a duplicate; the entry is
refreshed. -/
theorem isDuplicateSignal_seen_notdup (nty : String) (body : Body) (now : Nat)
    (recent : List (String × Nat)) (v : Nat) (helig : nty ∈ dedupSignals)
    (hseen : lookupA recent (dedupKey nty body) = some v)
    (hcond : ¬ (v ≠ 0 ∧ now - v < dedupWindowMs)) :
    isDuplicateSignal nty body now recent =
      (false, cleanupRecentSignals now (setA recent (dedupKey nty body) now)) := by
  simp only [isDuplicateSignal, helig, not_true, if_false, hseen]
  rw [if_neg hcond]

/-- A signal type outside the dedup-eligible set bypasses the cache entirely:
no duplicate verdict and no state change (in particular, no sweep). -/
theorem isDuplicateSignal_not_eligible (nty : String) (body : Body) (now : Nat)
    (recent : List (String × Nat)) (helig : nty ∉ dedupSignals) :
    isDuplicateSignal nty body now recent = (false, recent) := by
  simp only [isDuplicateSignal, helig, not_false_iff, if_true]

/-- After recording a fresh fingerprint at `now`, the swept cache still holds
the fingerprint with timestamp `now`. -/
theorem lookupA_cleanup_setA_fresh (m : List (String × Nat)) (key : String)
    (now : Nat) (h : lookupA m key = none) :
    lookupA (cleanupRecentSignals now (setA m key now)) key = some now := by
  rw [setA_eq_append_of_absent m key now h]
  unfold cleanupRecentSignals
  rw [List.filter_append]
  have hkept : List.filter (fun e => decide (now - e.2 ≤ dedupWindowMs * 2))
      [(key, now)] = [(key, now)] := by
    simp
  rw [hkept, lookupA_append]
  have hnone : lookupA (List.filter
      (fun e => decide (now - e.2 ≤ dedupWindowMs * 2)) m) key = none := by
    rw [lookupA_eq_none_iff]
    intro e he
    exact (lookupA_eq_none_iff m key).mp h e (List.mem_of_mem_filter he)
  rw [hnone]
  simp [lookupA]

/-! ### `onSendText` characterization lemmas (webrtc branch) -/

theorem onSendText_webrtc_result (srv : Server) (st : GState) (u : String)
    (now : Nat) (body : Body) (persist : Except String String)
    (hm : body.messageType = some "webrtc_signal") :
    (onSendText srv st (some u) now body persist).result =
      .sigOk "webrtc_signal"
        (isDuplicateSignal (normSignalType body) body now st.recentSignals).1 := by
  simp only [onSendText, hm, if_pos]
  by_cases hdup : (isDuplicateSignal (normSignalType body) body now
      st.recentSignals).1
  · simp [hdup]
  · by_cases ht : truthyStr body.targetId
    · simp only [hdup, ht, Bool.false_eq_true, if_false, if_true]
      by_cases hs : (sendToUser srv st.userSockets (body.targetId.getD "")
          (routeOptions (normSignalType body) body)).2.1
      · simp [hs]
      · simp [hs]
    · simp [hdup, ht]

theorem onSendText_webrtc_recent (srv : Server) (st : GState) (u : String)
    (now : Nat) (body : Body) (persist : Except String String)
    (hm : body.messageType = some "webrtc_signal") :
    (onSendText srv st (some u) now body persist).state.recentSignals =
      (isDuplicateSignal (normSignalType body) body now st.recentSignals).2 := by
  simp only [onSendText, hm, if_pos]
  by_cases hdup : (isDuplicateSignal (normSignalType body) body now
      st.recentSignals).1
  · simp [hdup]
  · by_cases ht : truthyStr body.targetId
    · simp only [hdup, ht, Bool.false_eq_true, if_false, if_true]
      by_cases hs : (sendToUser srv st.userSockets (body.targetId.getD "")
          (routeOptions (normSignalType body) body)).2.1
      · simp [hs]
      · simp [hs]
    · simp [hdup, ht]

/-- A deduplicated webrtc signal performs no delivery and leaves the whole
gateway state unchanged. -/
theorem onSendText_webrtc_dup (srv : Server) (st : GState) (u : String)
    (now : Nat) (body : Body) (persist : Except String String)
    (hm : body.messageType = some "webrtc_signal")
    (hdup : (isDuplicateSignal (normSignalType body) body now
      st.recentSignals).1 = true) :
    (onSendText srv st (some u) now body persist).emissions = [] ∧
    (onSendText srv st (some u) now body persist).state =
      ⟨st.userSockets,
        (isDuplicateSignal (normSignalType body) body now st.recentSignals).2⟩ := by
  constructor <;> simp [onSendText, hm, hdup]

/-- A webrtc signal that is not deduplicated always reaches a delivery step:
either targeted emissions or a room broadcast. -/
theorem onSendText_webrtc_nondup_emits (srv : Server) (st : GState) (u : String)
    (now : Nat) (body : Body) (persist : Except String String)
    (hm : body.messageType = some "webrtc_signal")
    (hdup : (isDuplicateSignal (normSignalType body) body now
      st.recentSignals).1 = false) :
    (onSendText srv st (some u) now body persist).emissions ≠ [] := by
  simp only [onSendText, hm, if_pos, hdup, Bool.false_eq_true, if_false]
  by_cases ht : truthyStr body.targetId
  · simp only [ht, if_true]
    by_cases hs : (sendToUser srv st.userSockets (body.targetId.getD "")
        (routeOptions (normSignalType body) body)).2.1
    · have hne := (sendToUser_delivered_iff srv st.userSockets
        (body.targetId.getD "") (routeOptions (normSignalType body) body)).mp hs
      simp only [hs, if_true]
      simpa using hne
    · simp [hs]
  · simp [ht]

/-- C2: for a dedup-eligible signal type, two identical signals within the
window produce exactly one delivery: the first call delivers, the second
returns `deduped: true`, performs no delivery and does not refresh the stored
timestamp; submitted ≥ window apart, both deliver. -/
theorem c2_dedup_window (srv : Server) (st : GState) (u : String) (body : Body)
    (t0 t1 : Nat) (persist persist2 : Except String String)
    (hm : body.messageType = some "webrtc_signal")
    (helig : normSignalType body ∈ dedupSignals)
    (hfresh : lookupA st.recentSignals (dedupKey (normSignalType body) body) = none)
    (ht0 : 0 < t0) :
    (onSendText srv st (some u) t0 body persist).emissions ≠ [] ∧
    (t1 - t0 < dedupWindowMs →
      (onSendText srv (onSendText srv st (some u) t0 body persist).state
          (some u) t1 body persist2).result = .sigOk "webrtc_signal" true ∧
      (onSendText srv (onSendText srv st (some u) t0 body persist).state
          (some u) t1 body persist2).emissions = [] ∧
      (onSendText srv (onSendText srv st (some u) t0 body persist).state
          (some u) t1 body persist2).state.recentSignals =
        (onSendText srv st (some u) t0 body persist).state.recentSignals) ∧
    (dedupWindowMs ≤ t1 - t0 →
      (onSendText srv (onSendText srv st (some u) t0 body persist).state
          (some u) t1 body persist2).result = .sigOk "webrtc_signal" false ∧
      (onSendText srv (onSendText srv st (some u) t0 body persist).state
          (some u) t1 body persist2).emissions ≠ []) := by
  have hrun1 := isDuplicateSignal_fresh (normSignalType body) body t0
    st.recentSignals helig hfresh
  have hrun1f : (isDuplicateSignal (normSignalType body) body t0
      st.recentSignals).1 = false := by rw [hrun1]
  have hrec1 : (onSendText srv st (some u) t0 body persist).state.recentSignals =
      cleanupRecentSignals t0
        (setA st.recentSignals (dedupKey (normSignalType body) body) t0) := by
    rw [onSendText_webrtc_recent srv st u t0 body persist hm, hrun1]
  have hseen : lookupA (onSendText srv st (some u) t0 body
      persist).state.recentSignals (dedupKey (normSignalType body) body) =
      some t0 := by
    rw [hrec1]
    exact lookupA_cleanup_setA_fresh st.recentSignals _ t0 hfresh
  refine ⟨onSendText_webrtc_nondup_emits srv st u t0 body persist hm hrun1f,
    ?_, ?_⟩
  · intro hwin
    have hdup := isDuplicateSignal_dup (normSignalType body) body t1
      (onSendText srv st (some u) t0 body persist).state.recentSignals t0 helig
      hseen (Nat.pos_iff_ne_zero.mp ht0) hwin
    have hdupt : (isDuplicateSignal (normSignalType body) body t1
        (onSendText srv st (some u) t0 body persist).state.recentSignals).1
        = true := by rw [hdup]
    have hd := onSendText_webrtc_dup srv
      (onSendText srv st (some u) t0 body persist).state u t1 body persist2 hm
      hdupt
    refine ⟨?_, hd.1, ?_⟩
    · rw [onSendText_webrtc_result srv
        (onSendText srv st (some u) t0 body persist).state u t1 body persist2 hm,
        hdupt]
    · rw [onSendText_webrtc_recent srv
        (onSendText srv st (some u) t0 body persist).state u t1 body persist2 hm,
        hdup]
  · intro hstale
    have hs := isDuplicateSignal_stale (normSignalType body) body t1
      (onSendText srv st (some u) t0 body persist).state.recentSignals t0 helig
      hseen hstale
    have hsf : (isDuplicateSignal (normSignalType body) body t1
        (onSendText srv st (some u) t0 body persist).state.recentSignals).1
        = false := by rw [hs]
    refine ⟨?_, onSendText_webrtc_nondup_emits srv
      (onSendText srv st (some u) t0 body persist).state u t1 body persist2 hm
      hsf⟩
    rw [onSendText_webrtc_result srv
      (onSendText srv st (some u) t0 body persist).state u t1 body persist2 hm,
      hsf]

/-- Witness for C2: a concrete `offer` resent after 400 ms is deduplicated. -/
theorem c2_witness :
    (onSendText ⟨[], []⟩ ⟨[], []⟩ (some "u") 500
        ⟨some "webrtc_signal", some "offer", "s", some "t", "r", none⟩
        (.ok "m")).emissions ≠ [] ∧
    (onSendText ⟨[], []⟩
        (onSendText ⟨[], []⟩ ⟨[], []⟩ (some "u") 500
          ⟨some "webrtc_signal", some "offer", "s", some "t", "r", none⟩
          (.ok "m")).state (some "u") 900
        ⟨some "webrtc_signal", some "offer", "s", some "t", "r", none⟩
        (.ok "m")).result = .sigOk "webrtc_signal" true ∧
    (onSendText ⟨[], []⟩
        (onSendText ⟨[], []⟩ ⟨[], []⟩ (some "u") 500
          ⟨some "webrtc_signal", some "offer", "s", some "t", "r", none⟩
          (.ok "m")).state (some "u") 900
        ⟨some "webrtc_signal", some "offer", "s", some "t", "r", none⟩
        (.ok "m")).emissions = [] := by
  have h := c2_dedup_window ⟨[], []⟩ ⟨[], []⟩ "u"
    ⟨some "webrtc_signal", some "offer", "s", some "t", "r", none⟩ 500 900
    (.ok "m") (.ok "m") (by decide) (by decide) (by decide) (by decide)
  exact ⟨h.1, (h.2.1 (by decide)).1, (h.2.1 (by decide)).2.1⟩

/-- C3: a targeted webrtc signal whose delivery reaches zero connections
falls back to broadcasting to the room except the sender. -/
theorem c3_room_fallback (srv : Server) (st : GState) (u : String) (now : Nat)
    (body : Body) (persist : Except String String)
    (hm : body.messageType = some "webrtc_signal")
    (hdup : (isDuplicateSignal (normSignalType body) body now
      st.recentSignals).1 = false)
    (ht : truthyStr body.targetId = true)
    (hzero : (sendToUser srv st.userSockets (body.targetId.getD "")
      (routeOptions (normSignalType body) body)).2.1 = false) :
    (onSendText srv st (some u) now body persist).emissions =
      [.roomExceptSender ("room:" ++ body.roomId) "newMessage" (.body body)] := by
  simp [onSendText, hm, hdup, ht, hzero]

/-- Witness for C3: the target identity is offline, so the signal is
broadcast to the room. -/
theorem c3_witness :
    (onSendText ⟨[], []⟩ ⟨[], []⟩ (some "u") 1
        ⟨some "webrtc_signal", some "offer", "s", some "t", "r", none⟩
        (.ok "m")).emissions =
      [.roomExceptSender "room:r" "newMessage"
        (.body ⟨some "webrtc_signal", some "offer", "s", some "t", "r", none⟩)] :=
  c3_room_fallback ⟨[], []⟩ ⟨[], []⟩ "u" 1
    ⟨some "webrtc_signal", some "offer", "s", some "t", "r", none⟩ (.ok "m")
    (by decide) (by decide) (by decide) (by decide)

/-- Counterexample to C5: an anonymous connection calling `joinRoom` is
rejected with `Unauthorized` (it does not succeed, contrary to the claim). -/
theorem c5_counterexample :
    (onJoinRoom none "c1" "r1").result = .unauthorized ∧
    (onJoinRoom none "c1" "r1").result ≠ .ok "r1" ∧
    (onJoinRoom none "c1" "r1").changes = [] := by
  decide

/-- C5 (amended): an anonymous connection may leave rooms, but `joinRoom`,
`sendText` and `signal` are all rejected with an explicit `Unauthorized`
result and cause no membership change, delivery or persistence. -/
theorem c5_anonymous_operations (clientId roomId : String) (srv : Server)
    (st : GState) (now : Nat) (body : Body)
    (persist psig : Except String String) :
    (onJoinRoom none clientId roomId).result = .unauthorized ∧
    (onJoinRoom none clientId roomId).changes = [] ∧
    (onJoinRoom none clientId roomId).emissions = [] ∧
    (onLeaveRoom none clientId roomId).result = .ok roomId ∧
    (onLeaveRoom none clientId roomId).changes =
      [(clientId, "room:" ++ roomId)] ∧
    (onSendText srv st none now body persist).result = .err "Unauthorized" ∧
    (onSendText srv st none now body persist).emissions = [] ∧
    (onSendText srv st none now body persist).persistCalled = false ∧
    (onSendText srv st none now body persist).state = st ∧
    (onSignal none roomId psig).result = .err "Unauthorized" ∧
    (onSignal none roomId psig).emissions = [] ∧
    (onSignal none roomId psig).persistCalled = false := by
  refine ⟨rfl, rfl, rfl, rfl, rfl, ?_, ?_, ?_, ?_, rfl, rfl, rfl⟩ <;>
    simp [onSendText]

/-- C6: for a chat (non-signal) message from an authenticated sender, a
persistence failure is returned to the caller only (no broadcast, state
untouched); on success the persisted message returned by the collaborator is
broadcast to the room. -/
theorem c6_chat_persistence (srv : Server) (st : GState) (u : String)
    (now : Nat) (body : Body)
    (hm : body.messageType ≠ some "webrtc_signal") :
    (∀ e, (onSendText srv st (some u) now body (.error e)).result = .err e ∧
      (onSendText srv st (some u) now body (.error e)).emissions = [] ∧
      (onSendText srv st (some u) now body (.error e)).state = st) ∧
    (∀ m, (onSendText srv st (some u) now body (.ok m)).result = .chat m ∧
      (onSendText srv st (some u) now body (.ok m)).emissions =
        [.toRoom ("room:" ++ body.roomId) "newMessage" (.msg m)]) := by
  constructor
  · intro e
    refine ⟨?_, ?_, ?_⟩ <;> simp [onSendText, hm]
  · intro m
    refine ⟨?_, ?_⟩ <;> simp [onSendText, hm]

/-- Witness for C6 at a concrete chat body. -/
theorem c6_witness :
    (onSendText ⟨[], []⟩ ⟨[], []⟩ (some "u") 1
        ⟨none, none, "s", none, "r", none⟩ (.error "db down")).result =
      .err "db down" ∧
    (onSendText ⟨[], []⟩ ⟨[], []⟩ (some "u") 1
        ⟨none, none, "s", none, "r", none⟩ (.error "db down")).emissions = [] ∧
    (onSendText ⟨[], []⟩ ⟨[], []⟩ (some "u") 1
        ⟨none, none, "s", none, "r", none⟩ (.ok "saved")).result =
      .chat "saved" ∧
    (onSendText ⟨[], []⟩ ⟨[], []⟩ (some "u") 1
        ⟨none, none, "s", none, "r", none⟩ (.ok "saved")).emissions =
      [.toRoom "room:r" "newMessage" (.msg "saved")] := by
  have h := c6_chat_persistence ⟨[], []⟩ ⟨[], []⟩ "u" 1
    ⟨none, none, "s", none, "r", none⟩ (by decide)
  exact ⟨(h.1 "db down").1, (h.1 "db down").2.1, (h.2 "saved").1,
    (h.2 "saved").2.trans (by decide)⟩

/-- Counterexample to C7: a successful routing of a `webrtc_signal` whose
`signalType` is `offer` returns `type: 'webrtc_signal'`, not the message's
`signalType`. -/
theorem c7_counterexample :
    ((onSendText ⟨[], []⟩ ⟨[], []⟩ (some "u") 1
        ⟨some "webrtc_signal", some "offer", "s", some "t", "r", none⟩
        (.ok "m")).result).typeField = some "webrtc_signal" ∧
    ((onSendText ⟨[], []⟩ ⟨[], []⟩ (some "u") 1
        ⟨some "webrtc_signal", some "offer", "s", some "t", "r", none⟩
        (.ok "m")).result).typeField ≠
      (⟨some "webrtc_signal", some "offer", "s", some "t", "r",
        none⟩ : Body).signalType := by
  decide

/-- C7 (amended): every routing of a `webrtc_signal` message by an
authenticated sender returns `{ ok: true, type: 'webrtc_signal' }` — the
constant message-type string, not the signal type — and the `deduped: true`
variant is returned exactly when the deduplication cache reported a
duplicate. -/
theorem c7_routing_result (srv : Server) (st : GState) (u : String)
    (now : Nat) (body : Body) (persist : Except String String)
    (hm : body.messageType = some "webrtc_signal") :
    (onSendText srv st (some u) now body persist).result =
      .sigOk "webrtc_signal"
        (isDuplicateSignal (normSignalType body) body now st.recentSignals).1 :=
  onSendText_webrtc_result srv st u now body persist hm

/-- Witness for C7 (amended) at a concrete non-duplicated signal. -/
theorem c7_witness :
    (onSendText ⟨[], []⟩ ⟨[], []⟩ (some "u") 1
        ⟨some "webrtc_signal", some "offer", "s", some "t", "r", none⟩
        (.ok "m")).result = .sigOk "webrtc_signal" false :=
  (c7_routing_result ⟨[], []⟩ ⟨[], []⟩ "u" 1
    ⟨some "webrtc_signal", some "offer", "s", some "t", "r", none⟩ (.ok "m")
    (by decide)).trans (by decide)

/-- Counterexample to C8: a call of the dedup check with a non-eligible type
(`ice-candidate`) leaves a cache entry older than `2 × window` in place — the
sweep does not run on every call. -/
theorem c8_counterexample :
    (isDuplicateSignal "ice-candidate"
        ⟨some "webrtc_signal", some "ice-candidate", "s", some "t", "r", none⟩
        5000 [("x", 1)]).2 = [("x", 1)] ∧
    5000 - 1 > dedupWindowMs * 2 := by
  decide

/-- C8 (amended): on every call of the dedup check with a dedup-eligible
type that is not reported as a duplicate, all cache entries older than twice
the window are evicted. -/
theorem c8_sweep_on_record (nty : String) (body : Body) (now : Nat)
    (recent : List (String × Nat)) (helig : nty ∈ dedupSignals)
    (hver : (isDuplicateSignal nty body now recent).1 = false) :
    ((isDuplicateSignal nty body now recent).2.all
      (fun e => now - e.2 ≤ dedupWindowMs * 2)) = true := by
  cases hk : lookupA recent (dedupKey nty body) with
  | none =>
    rw [isDuplicateSignal_fresh nty body now recent helig hk]
    rw [List.all_eq_true]
    intro e he
    replace he : e ∈ List.filter (fun e => decide (now - e.2 ≤ dedupWindowMs * 2))
      (setA recent (dedupKey nty body) now) := he
    have hpe := List.of_mem_filter he
    exact hpe
  | some v =>
    by_cases hcond : v ≠ 0 ∧ now - v < dedupWindowMs
    · rw [isDuplicateSignal_dup nty body now recent v helig hk hcond.1
        hcond.2] at hver
      simp at hver
    · rw [isDuplicateSignal_seen_notdup nty body now recent v helig hk hcond]
      rw [List.all_eq_true]
      intro e he
      replace he : e ∈ List.filter
        (fun e => decide (now - e.2 ≤ dedupWindowMs * 2))
        (setA recent (dedupKey nty body) now) := he
      have hpe := List.of_mem_filter he
      exact hpe

/-- Witness for C8 (amended): a fresh eligible call evicts the stale entry. -/
theorem c8_witness :
    ((isDuplicateSignal "offer"
        ⟨some "webrtc_signal", some "offer", "s", some "t", "r", none⟩
        5000 [("x", 1)]).2.all
      (fun e => 5000 - e.2 ≤ dedupWindowMs * 2)) = true :=
  c8_sweep_on_record "offer"
    ⟨some "webrtc_signal", some "offer", "s", some "t", "r", none⟩
    5000 [("x", 1)] (by decide) (by decide)

/-- C9: the dedup fingerprint uses only the first 64 characters of the
payload, so two signals sharing type, sender, target and room whose string
payloads agree on that prefix have the same fingerprint, and the second one
submitted within the window is deduplicated even when the payloads differ
beyond the prefix. -/
theorem c9_payload_prefix_dedup (mt sty : Option String) (sender : String)
    (target : Option String) (room : String) (s1 s2 : String)
    (recent : List (String × Nat)) (t0 t1 : Nat)
    (hpre : s1.take 64 = s2.take 64)
    (helig : normSignalType ⟨mt, sty, sender, target, room, some (.str s1)⟩
      ∈ dedupSignals)
    (hfresh : lookupA recent
      (dedupKey (normSignalType ⟨mt, sty, sender, target, room, some (.str s1)⟩)
        ⟨mt, sty, sender, target, room, some (.str s1)⟩) = none)
    (ht0 : 0 < t0) (hwin : t1 - t0 < dedupWindowMs) :
    dedupKey (normSignalType ⟨mt, sty, sender, target, room, some (.str s1)⟩)
        ⟨mt, sty, sender, target, room, some (.str s1)⟩ =
      dedupKey (normSignalType ⟨mt, sty, sender, target, room, some (.str s2)⟩)
        ⟨mt, sty, sender, target, room, some (.str s2)⟩ ∧
    (isDuplicateSignal
        (normSignalType ⟨mt, sty, sender, target, room, some (.str s2)⟩)
        ⟨mt, sty, sender, target, room, some (.str s2)⟩ t1
        (isDuplicateSignal
          (normSignalType ⟨mt, sty, sender, target, room, some (.str s1)⟩)
          ⟨mt, sty, sender, target, room, some (.str s1)⟩ t0 recent).2).1
      = true := by
  have hkey : dedupKey
      (normSignalType ⟨mt, sty, sender, target, room, some (.str s1)⟩)
      ⟨mt, sty, sender, target, room, some (.str s1)⟩ =
      dedupKey (normSignalType ⟨mt, sty, sender, target, room, some (.str s2)⟩)
      ⟨mt, sty, sender, target, room, some (.str s2)⟩ := by
    simp [dedupKey, payloadHashOf, hashPayload, normSignalType, hpre]
  refine ⟨hkey, ?_⟩
  have hr1 : (isDuplicateSignal
      (normSignalType ⟨mt, sty, sender, target, room, some (.str s1)⟩)
      ⟨mt, sty, sender, target, room, some (.str s1)⟩ t0 recent).2 =
      cleanupRecentSignals t0 (setA recent
        (dedupKey (normSignalType ⟨mt, sty, sender, target, room, some (.str s1)⟩)
          ⟨mt, sty, sender, target, room, some (.str s1)⟩) t0) := by
    rw [isDuplicateSignal_fresh _ _ t0 recent helig hfresh]
  rw [hr1]
  have hseen : lookupA (cleanupRecentSignals t0 (setA recent
      (dedupKey (normSignalType ⟨mt, sty, sender, target, room, some (.str s1)⟩)
        ⟨mt, sty, sender, target, room, some (.str s1)⟩) t0))
      (dedupKey (normSignalType ⟨mt, sty, sender, target, room, some (.str s2)⟩)
        ⟨mt, sty, sender, target, room, some (.str s2)⟩) = some t0 := by
    rw [← hkey]
    exact lookupA_cleanup_setA_fresh recent _ t0 hfresh
  rw [isDuplicateSignal_dup
    (normSignalType ⟨mt, sty, sender, target, room, some (.str s2)⟩)
    ⟨mt, sty, sender, target, room, some (.str s2)⟩ t1
    (cleanupRecentSignals t0 (setA recent
      (dedupKey (normSignalType ⟨mt, sty, sender, target, room, some (.str s1)⟩)
        ⟨mt, sty, sender, target, room, some (.str s1)⟩) t0))
    t0 helig hseen (Nat.pos_iff_ne_zero.mp ht0) hwin]

set_option maxRecDepth 8000 in
/-- Witness for C9: payloads sharing the first 64 characters but differing
at character 65 are deduplicated against each other. -/
theorem c9_witness :
    (isDuplicateSignal
        (normSignalType ⟨some "webrtc_signal", some "offer", "s", some "t",
          "r", some (.str
          "aaaaaaaaaaaaaaaaaaaaaaaaaaaaaaaaaaaaaaaaaaaaaaaaaaaaaaaaaaaaaaaaY")⟩)
        ⟨some "webrtc_signal", some "offer", "s", some "t", "r", some (.str
          "aaaaaaaaaaaaaaaaaaaaaaaaaaaaaaaaaaaaaaaaaaaaaaaaaaaaaaaaaaaaaaaaY")⟩
        900
        (isDuplicateSignal
          (normSignalType ⟨some "webrtc_signal", some "offer", "s", some "t",
            "r", some (.str
            "aaaaaaaaaaaaaaaaaaaaaaaaaaaaaaaaaaaaaaaaaaaaaaaaaaaaaaaaaaaaaaaaX")⟩)
          ⟨some "webrtc_signal", some "offer", "s", some "t", "r", some (.str
            "aaaaaaaaaaaaaaaaaaaaaaaaaaaaaaaaaaaaaaaaaaaaaaaaaaaaaaaaaaaaaaaaX")⟩
          500 []).2).1 = true :=
  (c9_payload_prefix_dedup (some "webrtc_signal") (some "offer") "s" (some "t")
    "r"
    "aaaaaaaaaaaaaaaaaaaaaaaaaaaaaaaaaaaaaaaaaaaaaaaaaaaaaaaaaaaaaaaaX"
    "aaaaaaaaaaaaaaaaaaaaaaaaaaaaaaaaaaaaaaaaaaaaaaaaaaaaaaaaaaaaaaaaY"
    [] 500 900 (by decide) (by decide) (by decide) (by decide) (by decide)).2

/-- With a room-scoped options object carrying a truthy (nonempty) room id,
every socket `sendToUser` emits to is a member of that room.  An empty room
id is falsy in `options?.roomId ? ... : undefined`, so no filter applies
there. -/
theorem sendToUser_emit_mem_room (srv : Server) (reg : Registry)
    (uid rid : String) (multiOpt : Option Bool) (hrid : rid ≠ "") :
    ∀ sid ∈ (sendToUser srv reg uid ⟨some rid, multiOpt⟩).2.2,
      (sid, "room:" ++ rid) ∈ srv.memberships := by
  have htru : truthyStr (some rid) = true := by simp [truthyStr, hrid]
  intro sid hsid
  unfold sendToUser at hsid
  cases h : lookupA reg uid with
  | none =>
    rw [h] at hsid
    simp at hsid
  | some socketIds =>
    rw [h] at hsid
    by_cases hlen : socketIds.length > 0
    · simp only [hlen, if_true, htru, Option.getD_some] at hsid
      have hp := sendLoop_emit_passRoom srv (some ("room:" ++ rid))
        (multiOpt.getD true) socketIds.reverse socketIds sid hsid
      simpa [passRoom] using hp
    · simp [hlen] at hsid

/-- For a room-scoped webrtc signal, every targeted emission of `onSendText`
goes to a socket that is a member of the signal's room. -/
theorem onSendText_toSocket_in_room (srv : Server) (st : GState) (u : String)
    (now : Nat) (body : Body) (persist : Except String String)
    (sid ev : String) (d : EmitData)
    (hm : body.messageType = some "webrtc_signal")
    (hroom : normSignalType body ∈ roomScopedSignals)
    (hrid : body.roomId ≠ "")
    (hmem : Emission.toSocket sid ev d ∈
      (onSendText srv st (some u) now body persist).emissions) :
    (sid, "room:" ++ body.roomId) ∈ srv.memberships := by
  have hopts : routeOptions (normSignalType body) body =
      ⟨some body.roomId, some (decide (normSignalType body ∈ multiTargetSignals))⟩ := by
    unfold routeOptions
    rw [if_pos hroom]
  by_cases hdup : (isDuplicateSignal (normSignalType body) body now
      st.recentSignals).1
  · rw [(onSendText_webrtc_dup srv st u now body persist hm hdup).1] at hmem
    simp at hmem
  · simp only [onSendText, hm, if_pos, hdup, Bool.false_eq_true, if_false] at hmem
    by_cases ht : truthyStr body.targetId
    · simp only [ht, if_true] at hmem
      by_cases hs : (sendToUser srv st.userSockets (body.targetId.getD "")
          (routeOptions (normSignalType body) body)).2.1
      · simp only [hs, if_true, List.mem_map] at hmem
        obtain ⟨sid', hsid', heq⟩ := hmem
        cases heq
        rw [hopts] at hsid'
        exact sendToUser_emit_mem_room srv st.userSockets
          (body.targetId.getD "") body.roomId _ hrid sid hsid'
      · simp only [hs, Bool.false_eq_true, if_false, List.mem_singleton] at hmem
        cases hmem
    · simp only [ht, Bool.false_eq_true, if_false, List.mem_singleton] at hmem
      cases hmem

/-- Counterexample to C10: a targeted `ice-candidate` with an empty room id
is delivered to the target's live socket even though that socket is not a
member of the signal's room (`room:`): the falsy `options?.roomId` disables
the room filter, so targeted delivery is not always room-filtered. -/
theorem c10_counterexample :
    (onSendText ⟨["c1"], []⟩ ⟨[("t", ["c1"])], []⟩ (some "u") 1
        ⟨some "webrtc_signal", some "ice-candidate", "s", some "t", "", none⟩
        (.ok "m")).emissions =
      [.toSocket "c1" "newMessage" (.body ⟨some "webrtc_signal",
        some "ice-candidate", "s", some "t", "", none⟩)] ∧
    ("c1", "room:" ++ "") ∉ (⟨["c1"], []⟩ : Server).memberships := by
  decide

/-- C10 (amended): `ice-candidate` is room-scoped but not dedup-eligible: it
bypasses the deduplication cache entirely (never `deduped: true`, cache
untouched, always delivered), while for a truthy (nonempty) room id its
targeted delivery is still filtered to sockets that are members of the
signal's room (an empty room id is falsy in JS, which disables the room
filter). -/
theorem c10_ice_candidate (srv : Server) (st : GState) (u : String)
    (now : Nat) (body : Body) (persist : Except String String)
    (hm : body.messageType = some "webrtc_signal")
    (hsig : body.signalType = some "ice-candidate")
    (hrid : body.roomId ≠ "") :
    "ice-candidate" ∈ roomScopedSignals ∧
    "ice-candidate" ∉ dedupSignals ∧
    (∀ (b : Body) (t : Nat) (recent : List (String × Nat)),
      isDuplicateSignal "ice-candidate" b t recent = (false, recent)) ∧
    (onSendText srv st (some u) now body persist).result =
      .sigOk "webrtc_signal" false ∧
    (onSendText srv st (some u) now body persist).emissions ≠ [] ∧
    ((onSendText srv st (some u) now body persist).emissions.all
      (fun e => match e with
        | .toSocket sid _ _ => (sid, "room:" ++ body.roomId) ∈ srv.memberships
        | _ => true)) = true := by
  have hnty : normSignalType body = "ice-candidate" := by
    rw [normSignalType, hsig]
    decide
  have hdup : (isDuplicateSignal (normSignalType body) body now
      st.recentSignals).1 = false := by
    rw [hnty, isDuplicateSignal_not_eligible "ice-candidate" body now
      st.recentSignals (by decide)]
  refine ⟨by decide, by decide,
    fun b t recent => isDuplicateSignal_not_eligible "ice-candidate" b t recent
      (by decide), ?_, onSendText_webrtc_nondup_emits srv st u now body persist
      hm hdup, ?_⟩
  · rw [onSendText_webrtc_result srv st u now body persist hm, hdup]
  · rw [List.all_eq_true]
    intro e he
    cases e with
    | toSocket sid ev d =>
      have := onSendText_toSocket_in_room srv st u now body persist sid ev d hm
        (by rw [hnty]; decide) hrid he
      exact decide_eq_true this
    | roomExceptSender room ev d => rfl
    | toRoom room ev d => rfl

/-- Witness for C10: a concrete `ice-candidate` to a target whose socket is
in the room. -/
theorem c10_witness :
    (onSendText ⟨["c1"], [("c1", "room:r")]⟩ ⟨[("t", ["c1"])], []⟩ (some "u") 1
        ⟨some "webrtc_signal", some "ice-candidate", "s", some "t", "r", none⟩
        (.ok "m")).result = .sigOk "webrtc_signal" false ∧
    ((onSendText ⟨["c1"], [("c1", "room:r")]⟩ ⟨[("t", ["c1"])], []⟩ (some "u") 1
        ⟨some "webrtc_signal", some "ice-candidate", "s", some "t", "r", none⟩
        (.ok "m")).emissions.all
      (fun e => match e with
        | .toSocket sid _ _ => (sid, "room:" ++ "r") ∈ [("c1", "room:r")]
        | _ => true)) = true := by
  have h := c10_ice_candidate ⟨["c1"], [("c1", "room:r")]⟩ ⟨[("t", ["c1"])], []⟩
    "u" 1 ⟨some "webrtc_signal", some "ice-candidate", "s", some "t", "r", none⟩
    (.ok "m") (by decide) (by decide) (by decide)
  exact ⟨h.2.2.2.1, h.2.2.2.2.2⟩
